import Mathlib

/-!
Verification development for the `nautobot_route_tracking` plugin.

The definitions below are a shallow embedding of the plugin's core code:

* `nautobot_route_tracking/models.py` — the `RouteEntry` model, the
  `is_excluded_route` filter (including the subset of Python's `ipaddress`
  module that it relies on), and `RouteEntry.update_or_create_entry`;
* `nautobot_route_tracking/jobs/purge_old_routes.py` — `PurgeOldRoutesJob.run`;
* `nautobot_route_tracking/jobs/collect_routes.py` — the EOS/IOS route
  parsers and the per-device persistence loop of `CollectRoutesJob.run`;
* `nautobot_route_tracking/jobs/_base.py` — `BaseCollectionJob.get_target_devices`.

The database is modelled as an explicit `List RouteEntry` threaded through the
operations; timestamps are integers (seconds); Django model instances become
plain structures.
-/

/-! ## Python `ipaddress` subset

`models.py` builds its exclusion list with `ipaddress.ip_network(n, strict=False)`
and compares networks with `subnet_of` / `==`.  We embed the text-to-network
parsing of CPython's `ipaddress` for IPv4 and IPv6 (decimal prefix notation;
the dotted-netmask spelling of a prefix, which the plugin never uses, is not
modelled and simply fails to parse).  A parsed network keeps its version, its
network address (host bits zeroed, per `strict=False`) and its prefix length;
CPython's canonical string form of a network is uniquely determined by these
three values, so network equality is equality of this structure.
-/

def decimalVal (s : List Char) : Nat :=
  s.foldl (fun a c => a * 10 + (c.toNat - 48)) 0

def isHexDigitChar (c : Char) : Bool :=
  c.isDigit || (65 ≤ c.toNat && c.toNat ≤ 70) || (97 ≤ c.toNat && c.toNat ≤ 102)

def hexDigitVal (c : Char) : Nat :=
  if c.isDigit then c.toNat - 48
  else if 97 ≤ c.toNat then c.toNat - 87
  else c.toNat - 55

/-- Split a character list on a separator, like Python's `str.split(sep)`
(always at least one part; adjacent separators yield empty parts). -/
def splitOnChar (sep : Char) : List Char → List (List Char)
  | [] => [[]]
  | c :: cs =>
    match splitOnChar sep cs with
    | [] => [[]]
    | r :: rs => if c = sep then [] :: r :: rs else (c :: r) :: rs

/-- CPython `IPv4Address._parse_octet`: 1–3 decimal digits, no leading zero
(unless the octet is exactly "0"), value at most 255. -/
def parseOctet (s : List Char) : Option Nat :=
  if s = [] then none
  else if 3 < s.length then none
  else if ¬ s.all Char.isDigit then none
  else if 1 < s.length ∧ s.head? = some '0' then none
  else if 255 < decimalVal s then none
  else some (decimalVal s)

/-- CPython `IPv4Address._ip_int_from_string`: exactly four octets. -/
def parseIPv4 (s : List Char) : Option Nat :=
  match (splitOnChar '.' s).mapM parseOctet with
  | some [a, b, c, d] => some (((a * 256 + b) * 256 + c) * 256 + d)
  | _ => none

/-- CPython `IPv6Address._parse_hextet`: 1–4 hex digits. -/
def parseHextet (s : List Char) : Option Nat :=
  if s = [] then none
  else if 4 < s.length then none
  else if ¬ s.all isHexDigitChar then none
  else some (s.foldl (fun a c => a * 16 + hexDigitVal c) 0)

/-- Parse each colon-separated part of an IPv6 literal: `none` marks an empty
part (a candidate for the `::` gap), `some v` a parsed hextet; the whole list
is rejected as soon as one non-empty part is not a valid hextet. -/
def hextetItems : List (List Char) → Option (List (Option Nat))
  | [] => some []
  | p :: ps => do
    let rest ← hextetItems ps
    if p = [] then some (none :: rest)
    else do
      let v ← parseHextet p
      some (some v :: rest)

/-- Handle CPython's embedded-IPv4 tail (`::ffff:1.2.3.4`): when the last part
contains a dot it must parse as an IPv4 address and is replaced by its two
16-bit halves before the structural analysis. -/
def ipv6Items (parts : List (List Char)) : Option (List (Option Nat)) :=
  match parts.getLast? with
  | none => none
  | some lastPart =>
    if lastPart.contains '.' then
      match parseIPv4 lastPart with
      | none => none
      | some v4 => do
        let items ← hextetItems parts.dropLast
        some (items ++ [some (v4 / 65536), some (v4 % 65536)])
    else hextetItems parts

/-- CPython `IPv6Address._ip_int_from_string`, structural phase: at most one
empty part strictly inside the list (the `::` gap); a leading or trailing
empty part is only permitted as half of a leading/trailing `::`; without a
gap there must be exactly eight hextets. -/
def assembleIPv6 (items : List (Option Nat)) : Option Nat :=
  let interior := (items.drop 1).dropLast
  let skips := interior.countP (fun x => x.isNone)
  if 2 ≤ skips then none
  else if skips = 1 then
    let skipIdx := 1 + interior.findIdx (fun x => x.isNone)
    let hi := items.take skipIdx
    let lo := items.drop (skipIdx + 1)
    let hiVals? := if items.head? = some none then
        (if skipIdx = 1 then some [] else none)
      else hi.mapM id
    let loVals? := if items.getLast? = some none then
        (if skipIdx = items.length - 2 then some [] else none)
      else lo.mapM id
    match hiVals?, loVals? with
    | some hv, some lv =>
      if hv.length + lv.length ≤ 7 then
        some ((hv.foldl (fun a x => a * 65536 + x) 0) * 2 ^ (16 * (8 - hv.length))
          + lv.foldl (fun a x => a * 65536 + x) 0)
      else none
    | _, _ => none
  else
    match items.mapM id with
    | some vs =>
      if vs.length = 8 then some (vs.foldl (fun a x => a * 65536 + x) 0) else none
    | none => none

def parseIPv6 (s : List Char) : Option Nat :=
  let parts := splitOnChar ':' s
  if parts.length < 3 then none
  else
    match ipv6Items parts with
    | none => none
    | some items => assembleIPv6 items

/-- An IP network as produced by `ipaddress.ip_network`: address family,
network address (an integer with host bits zeroed) and prefix length.  The
canonical string `str(net)` is uniquely determined by these fields. -/
structure IpNet where
  version : Nat
  addr : Nat
  prefixLen : Nat
deriving DecidableEq, Repr

/-- Split on the first slash, like CPython `_split_addr_prefix` (which uses
`str.partition` and therefore leaves any further slash inside the prefix
text, where it then fails the all-digits check). -/
def splitSlash : List Char → List Char × Option (List Char)
  | [] => ([], none)
  | c :: cs =>
    if c = '/' then ([], some cs)
    else
      let (a, p) := splitSlash cs
      (c :: a, p)

/-- CPython `_prefix_from_prefix_string`: decimal digits only, bounded by the
family's maximum prefix length. -/
def parsePrefixLen (w : Nat) (s : List Char) : Option Nat :=
  if s = [] then none
  else if ¬ s.all Char.isDigit then none
  else if decimalVal s ≤ w then some (decimalVal s) else none

def ipNetworkAux (v w : Nat) (parseAddr : List Char → Option Nat)
    (s : List Char) : Option IpNet :=
  let (a, p) := splitSlash s
  match parseAddr a with
  | none => none
  | some addr =>
    match (match p with
           | none => some w
           | some ps => parsePrefixLen w ps) with
    | none => none
    | some pl =>
      -- strict=False: host bits are permitted in the input and zeroed here
      some ⟨v, addr / 2 ^ (w - pl) * 2 ^ (w - pl), pl⟩

/-- Embedding of `ipaddress.ip_network(s, strict=False)`: IPv4 is attempted
first, then IPv6; `none` corresponds to `ValueError`. -/
def ip_network (s : String) : Option IpNet :=
  match ipNetworkAux 4 32 parseIPv4 s.data with
  | some n => some n
  | none => ipNetworkAux 6 128 parseIPv6 s.data

def ipWidth (version : Nat) : Nat := if version = 4 then 32 else 128

def broadcastAddr (n : IpNet) : Nat :=
  n.addr + (2 ^ (ipWidth n.version - n.prefixLen) - 1)

/-- CPython `_BaseNetwork._is_subnet_of a b` (is `a` a subnet of `b`):
`b.network_address <= a.network_address and b.broadcast_address >= a.broadcast_address`. -/
def subnet_of (a b : IpNet) : Bool :=
  decide (b.addr ≤ a.addr) && decide (broadcastAddr a ≤ broadcastAddr b)

/-! ## `models.py`: constants and `is_excluded_route` -/

def EXCLUDED_ROUTE_NETWORKS : List String :=
  ["224.0.0.0/4",    -- IPv4 Multicast (includes 239.0.0.0/8)
   "169.254.0.0/16", -- IPv4 Link-local
   "127.0.0.0/8",    -- IPv4 Loopback
   "ff00::/8",       -- IPv6 Multicast
   "fe80::/10",      -- IPv6 Link-local
   "::1/128"]        -- IPv6 Loopback

/-- Pre-computed network objects (`_EXCLUDED_NETWORKS` in the source; there a
parse failure would crash at import time, here it would silently drop the
entry — `EXCLUDED_NETWORKS_parsed_ok` below checks that all six parse). -/
def EXCLUDED_NETWORKS : List IpNet :=
  EXCLUDED_ROUTE_NETWORKS.filterMap ip_network

def SUPPORTED_PLATFORMS : List String := ["cisco_ios", "arista_eos"]

/-- Embedding of `models.is_excluded_route`. -/
def is_excluded_route (network : String) : Bool :=
  match ip_network network with
  | none => false
  | some net =>
    EXCLUDED_NETWORKS.any (fun excluded =>
      decide (net.version = excluded.version)
        && (subnet_of net excluded || decide (net = excluded)))

/-! ## `models.py`: the `RouteEntry` model and `update_or_create_entry`

A row of the `nautobot_route_tracking_routeentry` table.  Foreign keys become
plain identifiers (`device`, `vrf`), an interface is the pair of its id and
the device it belongs to (which `RouteEntry.clean` checks), and the two
timestamps are integers.  The `network` column stores `str(net)` of the
canonical network; since that string is uniquely determined by the parsed
network, the embedding stores the `IpNet` value itself.
-/

structure Iface where
  id : Nat
  device : Nat
deriving DecidableEq, Repr

structure RouteEntry where
  device : Nat
  vrf : Option Nat
  network : IpNet
  prefixLength : Nat
  protocol : String
  next_hop : String
  outgoing_interface : Option Iface
  metric : Nat
  admin_distance : Nat
  is_active : Bool
  routing_table : String
  first_seen : Int
  last_seen : Int
deriving DecidableEq, Repr

/-- Values of `RouteEntry.Protocol.choices` (the `_VALID_PROTOCOLS` set of
`collect_routes.py`). -/
def VALID_PROTOCOLS : List String :=
  ["ospf", "bgp", "static", "connected", "isis", "rip", "eigrp", "local", "unknown"]

/-- Identity key of a route row: `(device, vrf, network, next_hop, protocol)`. -/
def routeKey (e : RouteEntry) : Nat × Option Nat × IpNet × String × String :=
  (e.device, e.vrf, e.network, e.next_hop, e.protocol)

/-- Embedding of the `select_for_update().filter(device=…, vrf=…, network=…,
next_hop=…, protocol=…).first()` lookup.  The table's unique constraints
allow at most one matching row, so taking the first match of the list is
faithful regardless of the model's default ordering. -/
def findRoute (store : List RouteEntry)
    (k : Nat × Option Nat × IpNet × String × String) : Option RouteEntry :=
  store.find? (fun e => decide (routeKey e = k))

/-- Replace the first element satisfying `p` by `f` of it, leaving everything
else in place (the in-place `existing.validated_save()` of the UPDATE branch). -/
def updateFirst (p : RouteEntry → Bool) (f : RouteEntry → RouteEntry) :
    List RouteEntry → List RouteEntry
  | [] => []
  | e :: es => if p e then f e :: es else e :: updateFirst p f es

/-- Check of `RouteEntry.clean` that an outgoing interface, when present,
belongs to the entry's device. -/
def ifaceOk (oiface : Option Iface) (device : Nat) : Bool :=
  match oiface with
  | none => true
  | some i => decide (i.device = device)

/-- Validation performed by `validated_save()` (`full_clean`): `clean_fields`
rejects a protocol outside the `Protocol` choices, and `RouteEntry.clean`
rejects an outgoing interface that does not belong to the entry's device.
The network needs no re-check here: both save paths store the canonical form
already computed by `update_or_create_entry`. -/
def entryValid (e : RouteEntry) : Bool :=
  VALID_PROTOCOLS.contains e.protocol && ifaceOk e.outgoing_interface e.device

/-- Python `str.lower()` for the ASCII protocol labels this plugin handles
(written over the character list so that it reduces in the kernel). -/
def pyLower (s : String) : String :=
  String.mk (s.data.map (fun c =>
    if 65 ≤ c.toNat ∧ c.toNat ≤ 90 then Char.ofNat (c.toNat + 32) else c))

/-- Normalization of the `protocol` argument:
`protocol.lower() if protocol else "unknown"`. -/
def normalizeProtocol (protocol : String) : String :=
  if protocol = "" then "unknown" else pyLower protocol

/-- Embedding of `RouteEntry.update_or_create_entry`.  The database is passed
in and returned explicitly; `now` is the value of `timezone.now()` during the
call (`first_seen` is `auto_now_add`, i.e. also set to the save time on the
INSERT branch).  `Except.error` covers both the explicit
`ValueError("Invalid CIDR prefix …")` raised for an unparsable network and a
`ValidationError` raised by `validated_save()`. -/
def update_or_create_entry (store : List RouteEntry) (now : Int)
    (device : Nat) (network : String) (protocol : String)
    (vrf : Option Nat) (next_hop : String) (outgoing_interface : Option Iface)
    (metric : Nat) (admin_distance : Nat) (is_active : Bool)
    (routing_table : String) :
    Except String (List RouteEntry × RouteEntry × Bool) :=
  let normalized_protocol := normalizeProtocol protocol
  match ip_network network with
  | none => Except.error "Invalid CIDR prefix"
  | some net =>
    let k := (device, vrf, net, next_hop, normalized_protocol)
    match findRoute store k with
    | some existing =>
      -- UPDATE: same identity, refresh mutable fields
      let updated := { existing with
        last_seen := now
        metric := metric
        admin_distance := admin_distance
        is_active := is_active
        prefixLength := net.prefixLen
        routing_table := routing_table
        outgoing_interface := outgoing_interface }
      if entryValid updated then
        Except.ok (updateFirst (fun e => decide (routeKey e = k)) (fun _ => updated) store,
          updated, false)
      else Except.error "ValidationError"
    | none =>
      -- INSERT: new route combination
      let entry : RouteEntry := {
        device := device
        vrf := vrf
        network := net
        prefixLength := net.prefixLen
        protocol := normalized_protocol
        next_hop := next_hop
        outgoing_interface := outgoing_interface
        metric := metric
        admin_distance := admin_distance
        is_active := is_active
        routing_table := routing_table
        first_seen := now
        last_seen := now }
      if entryValid entry then Except.ok (store ++ [entry], entry, true)
      else Except.error "ValidationError"

/-! ## `jobs/purge_old_routes.py`: `PurgeOldRoutesJob.run` -/

/-- Modelled from the spec: the custom queryset method
`RouteEntry.objects.stale(days=…)` is called by `PurgeOldRoutesJob.run` (and
`views.py`) but its definition is not among the sources here.  The spec's
Reconciliation Store section defines the purger's selection as
`stale_before(cutoff)` — "all records with `last_seen < cutoff`" — with
`cutoff = now - retention_days` days, exactly the cutoff the job logs.
Timestamps are in seconds, so a day is 86400. -/
def stale (store : List RouteEntry) (now : Int) (days : Nat) : List RouteEntry :=
  store.filter (fun e => decide (e.last_seen < now - (days : Int) * 86400))

/-- Embedding of `PurgeOldRoutesJob.run`: with `commit` the stale rows are
deleted and the deleted count returned; without it the store is untouched and
the would-be count returned (the job's returned dict is
`{"route_entries": count}`). -/
def PurgeOldRoutesJob_run (store : List RouteEntry) (now : Int)
    (retention_days : Nat) (commit : Bool) : List RouteEntry × Nat :=
  if commit then
    (store.filter (fun e => ! decide (e.last_seen < now - (retention_days : Int) * 86400)),
     (stale store now retention_days).length)
  else
    (store, (stale store now retention_days).length)

/-! ## `jobs/collect_routes.py`: protocol maps and vendor parsers

The parsers are embedded from their post-decoding loops: `_parse_eos_routes`
receives the structure that `json.loads` produced and `_parse_ios_routes`
receives the row dicts that `textfsm.ParseTextToDicts` produced (JSON decoding
and the TextFSM grammar engine are third-party library code outside this
repository).  Python's falsy-coalescing `x or default` on strings is
`pyOrStr` below.
-/

def pyOrStr (s d : String) : String := if s = "" then d else s

def pyOrOptStr (s : Option String) (d : String) : String :=
  match s with
  | none => d
  | some v => pyOrStr v d

/-- Lookup in an association list, like `dict.get(k, d)`. -/
def dictGet (m : List (String × String)) (k d : String) : String :=
  match m.find? (fun p => decide (p.1 = k)) with
  | some p => p.2
  | none => d

def EOS_PROTOCOL_MAP : List (String × String) :=
  [("ebgp", "bgp"), ("ibgp", "bgp"), ("bgp", "bgp"),
   ("ospf", "ospf"), ("ospfinter", "ospf"), ("ospfintra", "ospf"),
   ("ospfext1", "ospf"), ("ospfext2", "ospf"),
   ("ospfnssa1", "ospf"), ("ospfnssa2", "ospf"),
   ("static", "static"), ("connected", "connected"), ("local", "local"),
   ("isis", "isis"), ("rip", "rip"), ("eigrp", "eigrp"),
   ("aggregate", "static")]

def IOS_PROTOCOL_MAP : List (String × String) :=
  [("C", "connected"), ("L", "local"), ("S", "static"), ("R", "rip"),
   ("M", "unknown"), ("B", "bgp"), ("D", "eigrp"), ("EX", "eigrp"),
   ("O", "ospf"), ("IA", "ospf"), ("N1", "ospf"), ("N2", "ospf"),
   ("E1", "ospf"), ("E2", "ospf"),
   ("i", "isis"), ("su", "isis"), ("L1", "isis"), ("L2", "isis"),
   ("ia", "isis")]

/-- Protocol normalization of `_parse_eos_routes` (lines 126–129):
lower-case the reported `routeType` (missing/empty → "unknown"), map it
through `_EOS_PROTOCOL_MAP` with the raw value as fallback, then coerce
anything outside `_VALID_PROTOCOLS` to "unknown". -/
def eosProtocol (routeType : Option String) : String :=
  let raw := pyLower (pyOrOptStr routeType "unknown")
  let p := dictGet EOS_PROTOCOL_MAP raw raw
  if VALID_PROTOCOLS.contains p then p else "unknown"

/-- Protocol normalization of `_parse_ios_routes` (lines 192–195): map the
TextFSM protocol code through `_IOS_PROTOCOL_MAP` with "unknown" as fallback,
then coerce anything outside `_VALID_PROTOCOLS` to "unknown". -/
def iosProtocol (code : String) : String :=
  let p := dictGet IOS_PROTOCOL_MAP code "unknown"
  if VALID_PROTOCOLS.contains p then p else "unknown"

/-- One normalized next-hop dict as built by both parsers. -/
structure Nexthop where
  protocol : String
  next_hop : String
  outgoing_interface : String
  preference : Nat
  metric : Nat
  current_active : Bool
  routing_table : String
deriving DecidableEq, Repr

/-- A `via` entry of an EOS route (`nexthopAddr` / `interface` may be absent). -/
structure EosVia where
  nexthopAddr : Option String
  interface : Option String
deriving DecidableEq, Repr

/-- One route of the decoded EOS JSON (`routeType`, `preference`, `metric`
may be absent; `int(x or 0)` becomes `Option.getD 0`). -/
structure EosRoute where
  routeType : Option String
  preference : Option Nat
  metric : Option Nat
  vias : List EosVia
deriving DecidableEq, Repr

/-- Decoded `show ip route vrf all | json` output:
vrf name → (prefix → route attributes). -/
structure EosData where
  vrfs : List (String × List (String × EosRoute))
deriving DecidableEq, Repr

/-- The `routes.setdefault(prefix, []).extend(nexthop_list)` accumulation on
the prefix-keyed association list. -/
def extendAt (m : List (String × List Nexthop)) (k : String)
    (vs : List Nexthop) : List (String × List Nexthop) :=
  match m with
  | [] => [(k, vs)]
  | (k1, vs1) :: rest =>
    if k1 = k then (k1, vs1 ++ vs) :: rest else (k1, vs1) :: extendAt rest k vs

/-- Nexthop dicts produced for one EOS route: one per `via`, or a single
empty-next-hop observation when the route has no vias (e.g. a blackhole). -/
def eosNexthops (vrf_name : String) (rd : EosRoute) : List Nexthop :=
  let protocol := eosProtocol rd.routeType
  let preference := rd.preference.getD 0
  let metric := rd.metric.getD 0
  let nexthop_list := rd.vias.map (fun via =>
    { protocol := protocol
      next_hop := pyOrOptStr via.nexthopAddr ""
      outgoing_interface := pyOrOptStr via.interface ""
      preference := preference
      metric := metric
      current_active := true
      routing_table := vrf_name : Nexthop })
  if nexthop_list.isEmpty then
    [{ protocol := protocol, next_hop := "", outgoing_interface := ""
       preference := preference, metric := metric
       current_active := true, routing_table := vrf_name }]
  else nexthop_list

/-- Embedding of `_parse_eos_routes` (from the decoded JSON structure). -/
def parse_eos_routes (data : EosData) : List (String × List Nexthop) :=
  data.vrfs.foldl (fun routes vrfPair =>
    vrfPair.2.foldl (fun routes routePair =>
      extendAt routes routePair.1 (eosNexthops vrfPair.1 routePair.2)) routes) []

/-- One TextFSM row of `cisco_ios_show_ip_route` (all values are strings;
the template yields "" for an unmatched field).  `DISTANCE` and `METRIC`
contain decimal digits whenever non-empty. -/
structure IosRow where
  NETWORK : String
  PREFIX_LENGTH : String
  PROTOCOL : String
  NEXTHOP_IP : String
  NEXTHOP_IF : String
  DISTANCE : String
  METRIC : String
  VRF : String
deriving DecidableEq, Repr

/-- Python `int(s) if s else 0` for the digit strings of a TextFSM row. -/
def pyIntStr (s : String) : Nat := if s = "" then 0 else decimalVal s.data

/-- Embedding of `_parse_ios_routes` (from the TextFSM row dicts).  Rows
missing `NETWORK` or `PREFIX_LENGTH` are discarded; each surviving row
appends one nexthop dict under its `NETWORK/PREFIX_LENGTH` key. -/
def parse_ios_routes (rows : List IosRow) : List (String × List Nexthop) :=
  rows.foldl (fun routes row =>
    if row.NETWORK = "" ∨ row.PREFIX_LENGTH = "" then routes
    else
      extendAt routes (row.NETWORK ++ "/" ++ row.PREFIX_LENGTH)
        [{ protocol := iosProtocol row.PROTOCOL
           next_hop := pyOrStr row.NEXTHOP_IP ""
           outgoing_interface := pyOrStr row.NEXTHOP_IF ""
           preference := pyIntStr row.DISTANCE
           metric := pyIntStr row.METRIC
           current_active := true
           routing_table := pyOrStr row.VRF "default" }]) []

/-! ## `jobs/collect_routes.py`: `CollectRoutesJob.run`

The per-device persistence loop (lines 601–694) is embedded as a fold over
the prefix → nexthop-list map a parser produced.  `VRF.objects.filter(name=…)
.first()` is the `vrfLookup` parameter (the job's `vrf_cache` merely memoizes
this deterministic lookup); `Interface.objects.filter(device=…)` pre-fetched
by name is the `interfaces` parameter.  In the typed embedding every nexthop
is a well-formed dict, so the `isinstance` guards of the source never fire.
-/

structure DevCounters where
  updated : Nat
  created : Nat
  excluded : Nat
  dryrun : Nat
  invalid : Nat
deriving DecidableEq, Repr

/-- Body of the inner `for nexthop in nexthops` loop: resolve the candidate's
fields, then either count it as a dry-run (commit=False, before any
validation) or upsert it, counting a `ValueError`/`ValidationError` as
invalid and otherwise created/updated. -/
def processNexthop (vrfLookup : String → Option Nat) (dev : Nat)
    (interfaces : List (String × Iface)) (now : Int) (commit : Bool)
    (pfx : String) (acc : List RouteEntry × DevCounters) (nh : Nexthop) :
    List RouteEntry × DevCounters :=
  let protocol := pyOrStr (pyLower nh.protocol) "unknown"
  let next_hop := pyOrStr nh.next_hop ""
  let iface_name := pyOrStr nh.outgoing_interface ""
  let outgoing_interface : Option Iface :=
    if iface_name = "" then none
    else (interfaces.find? (fun p => decide (p.1 = iface_name))).map (fun p => p.2)
  let admin_distance := nh.preference
  let metric := nh.metric
  let is_active := nh.current_active
  let routing_table := pyOrStr nh.routing_table "default"
  let vrf_obj : Option Nat :=
    if ["default", "inet.0", ""].contains routing_table then none
    else vrfLookup routing_table
  if ¬ commit then
    (acc.1, { acc.2 with dryrun := acc.2.dryrun + 1 })
  else
    match update_or_create_entry acc.1 now dev pfx protocol vrf_obj next_hop
        outgoing_interface metric admin_distance is_active routing_table with
    | Except.error _ => (acc.1, { acc.2 with invalid := acc.2.invalid + 1 })
    | Except.ok (store1, _, created) =>
      if created then (store1, { acc.2 with created := acc.2.created + 1 })
      else (store1, { acc.2 with updated := acc.2.updated + 1 })

/-- The `for prefix, nexthops in routes.items()` loop of one device's
transaction: excluded prefixes are counted and skipped whole; every other
prefix's nexthops go through `processNexthop`. -/
def processRoutes (vrfLookup : String → Option Nat) (dev : Nat)
    (interfaces : List (String × Iface)) (now : Int) (commit : Bool)
    (routes : List (String × List Nexthop)) (store : List RouteEntry) :
    List RouteEntry × DevCounters :=
  routes.foldl (fun acc pr =>
    if is_excluded_route pr.1 then
      (acc.1, { acc.2 with excluded := acc.2.excluded + 1 })
    else
      pr.2.foldl (processNexthop vrfLookup dev interfaces now commit pr.1) acc)
    (store, ⟨0, 0, 0, 0, 0⟩)

structure RunStats where
  devices_total : Nat
  devices_success : Nat
  devices_failed : Nat
  devices_skipped : Nat
  routes_updated : Nat
  routes_created : Nat
  routes_excluded : Nat
  routes_dryrun : Nat
  routes_invalid : Nat
deriving DecidableEq, Repr

/-- Outcome of the parallel Nornir phase for one dispatched device: `fail`
covers a missing result, `host_result.failed` and a non-dict payload;
`collected` carries the routes dict built by `_collect_routes_task`. -/
inductive DeviceResult where
  | fail
  | collected (routes : List (String × List Nexthop))
deriving DecidableEq, Repr

structure DeviceTask where
  device : Nat
  interfaces : List (String × Iface)
  result : DeviceResult
deriving Repr

/-- One iteration of the sequential `for device_name, device_obj in
device_map.items()` loop: a failed collection only increments
`devices_failed`; an empty routes dict is success without route processing;
otherwise the device's routes are persisted and its counters folded into the
statistics. -/
def collectStep (vrfLookup : String → Option Nat) (now : Int) (commit : Bool)
    (acc : RunStats × List RouteEntry) (t : DeviceTask) :
    RunStats × List RouteEntry :=
  match t.result with
  | DeviceResult.fail =>
    ({ acc.1 with devices_failed := acc.1.devices_failed + 1 }, acc.2)
  | DeviceResult.collected routes =>
    if routes.isEmpty then
      ({ acc.1 with devices_success := acc.1.devices_success + 1 }, acc.2)
    else
      let r := processRoutes vrfLookup t.device t.interfaces now commit routes acc.2
      ({ acc.1 with
          routes_created := acc.1.routes_created + r.2.created
          routes_updated := acc.1.routes_updated + r.2.updated
          routes_excluded := acc.1.routes_excluded + r.2.excluded
          routes_dryrun := acc.1.routes_dryrun + r.2.dryrun
          routes_invalid := acc.1.routes_invalid + r.2.invalid
          devices_success := acc.1.devices_success + 1 }, r.1)

def initStats (total : Nat) : RunStats := ⟨total, 0, 0, 0, 0, 0, 0, 0, 0⟩

/-- Embedding of the outcome logic of `CollectRoutesJob.run`.  `tasks` is the
dispatched device set (`device_map`) with each device's Nornir outcome; an
empty task list stands for the early returns ("no devices matched filters" /
"no devices in Nornir inventory"), which return without raising.  After the
sequential loop the job raises `RuntimeError` — modelled as `Except.error` —
exactly when `devices_success == 0 and devices_failed > 0` (line 764). -/
def CollectRoutesJob_run (vrfLookup : String → Option Nat)
    (tasks : List DeviceTask) (store : List RouteEntry) (now : Int)
    (commit : Bool) : Except String (RunStats × List RouteEntry) :=
  if tasks.isEmpty then Except.ok (initStats 0, store)
  else
    let r := tasks.foldl (collectStep vrfLookup now commit)
      (initStats tasks.length, store)
    if r.1.devices_success = 0 ∧ 0 < r.1.devices_failed then
      Except.error "Total collection failure"
    else Except.ok r

/-! ## `jobs/_base.py`: `BaseCollectionJob.get_target_devices` -/

/-- A row of the device inventory, with the fields the selector reads.
`platform` is the platform's `network_driver` when a platform is assigned
(`platform__isnull` / `platform__network_driver__in` read it). -/
structure DeviceRec where
  pk : Nat
  status : String
  platform : Option String
  hasPrimaryIp4 : Bool
  role : Nat
  location : Nat
  tags : List Nat
deriving DecidableEq, Repr

/-- Embedding of `BaseCollectionJob.get_target_devices`.  `allDevices` is the
device table; `dynamic_group` is the member pk list of the group when one is
given; `location` carries, per selected location, the pks of its descendants
including itself (`loc.descendants(include_self=True)`); `tag` is the selected
tag pks.  List filtering never duplicates rows, so the final `.distinct()`
is the identity here. -/
def get_target_devices (allDevices : List DeviceRec)
    (device : Option DeviceRec) (dynamic_group : Option (List Nat))
    (device_role : List Nat) (location : List (List Nat)) (tag : List Nat) :
    List DeviceRec :=
  match device with
  | some d =>
    -- Case 1: single specific device — ignore all other filters
    allDevices.filter (fun x => decide (x.pk = d.pk))
  | none =>
    let queryset := allDevices.filter (fun x =>
      ["Active", "Staged"].contains x.status && x.platform.isSome
        && x.hasPrimaryIp4)
    let queryset := match dynamic_group with
      | some member_ids => queryset.filter (fun x : DeviceRec => member_ids.contains x.pk)
      | none => queryset
    let queryset := if device_role.isEmpty then queryset
      else queryset.filter (fun x => device_role.contains x.role)
    let queryset := if location.isEmpty then queryset
      else
        let location_ids := location.foldl (fun acc l => acc ++ l) []
        queryset.filter (fun x => location_ids.contains x.location)
    let queryset := tag.foldl (fun qs t => qs.filter (fun x => x.tags.contains t)) queryset
    queryset.filter (fun x =>
      match x.platform with
      | some drv => SUPPORTED_PLATFORMS.contains drv
      | none => false)

/-! ## Helper lemmas -/

theorem updateFirst_length (p : RouteEntry → Bool) (f : RouteEntry → RouteEntry) :
    ∀ l : List RouteEntry, (updateFirst p f l).length = l.length := by
  intro l
  induction l with
  | nil => rfl
  | cons e es ih =>
    cases h : p e with
    | true => simp [updateFirst, h]
    | false => simp [updateFirst, h, ih]

theorem find?_updateFirst (p : RouteEntry → Bool) (f : RouteEntry → RouteEntry)
    (l : List RouteEntry) (e : RouteEntry) (h : l.find? p = some e)
    (hf : p (f e) = true) : (updateFirst p f l).find? p = some (f e) := by
  induction l with
  | nil => simp [List.find?] at h
  | cons x xs ih =>
    cases hx : p x with
    | true =>
      rw [List.find?_cons_of_pos _ hx] at h
      cases h
      simp [updateFirst, hx, List.find?_cons_of_pos _ hf]
    | false =>
      rw [List.find?_cons_of_neg _ (by simp [hx])] at h
      simp only [updateFirst, hx, Bool.false_eq_true, if_false]
      rw [List.find?_cons_of_neg _ (by simp [hx])]
      exact ih h

theorem mem_updateFirst_const (p : RouteEntry → Bool) (v : RouteEntry)
    (l : List RouteEntry) (x : RouteEntry)
    (h : x ∈ updateFirst p (fun _ => v) l) : x ∈ l ∨ x = v := by
  induction l with
  | nil => simp [updateFirst] at h
  | cons y ys ih =>
    cases hy : p y with
    | true =>
      simp only [updateFirst, hy, if_true] at h
      rcases List.mem_cons.mp h with h1 | h1
      · right; exact h1
      · left; exact List.mem_cons_of_mem _ h1
    | false =>
      simp only [updateFirst, hy, Bool.false_eq_true, if_false] at h
      rcases List.mem_cons.mp h with h1 | h1
      · left; simp [h1]
      · rcases ih h1 with h2 | h2
        · left; exact List.mem_cons_of_mem _ h2
        · right; exact h2

theorem mem_updateFirst_of_neg (p : RouteEntry → Bool) (f : RouteEntry → RouteEntry)
    (l : List RouteEntry) (x : RouteEntry) (hx : x ∈ l) (hpx : p x = false) :
    x ∈ updateFirst p f l := by
  induction l with
  | nil => simp at hx
  | cons y ys ih =>
    cases hy : p y with
    | true =>
      simp only [updateFirst, hy, if_true]
      rcases List.mem_cons.mp hx with h | h
      · rw [h] at hpx; rw [hpx] at hy; cases hy
      · exact List.mem_cons_of_mem _ h
    | false =>
      simp only [updateFirst, hy, Bool.false_eq_true, if_false]
      rcases List.mem_cons.mp hx with h | h
      · exact h ▸ List.mem_cons_self _ _
      · exact List.mem_cons_of_mem _ (ih h)

theorem find?_append_last_none (p : RouteEntry → Bool) (l : List RouteEntry)
    (x : RouteEntry) (h : l.find? p = none) (hx : p x = false) :
    (l ++ [x]).find? p = none := by
  induction l with
  | nil => simp [List.find?, hx]
  | cons y ys ih =>
    cases hy : p y with
    | true => rw [List.find?_cons_of_pos _ hy] at h; cases h
    | false =>
      rw [List.find?_cons_of_neg _ (by simp [hy])] at h
      rw [List.cons_append, List.find?_cons_of_neg _ (by simp [hy])]
      exact ih h

theorem find?_append_last_pos (p : RouteEntry → Bool) (l : List RouteEntry)
    (x : RouteEntry) (h : l.find? p = none) (hx : p x = true) :
    (l ++ [x]).find? p = some x := by
  induction l with
  | nil => simp [List.find?, hx]
  | cons y ys ih =>
    cases hy : p y with
    | true => rw [List.find?_cons_of_pos _ hy] at h; cases h
    | false =>
      rw [List.find?_cons_of_neg _ (by simp [hy])] at h
      rw [List.cons_append, List.find?_cons_of_neg _ (by simp [hy])]
      exact ih h

theorem length_filter_not_add_countP (p : RouteEntry → Bool) (l : List RouteEntry) :
    (l.filter (fun e => ! p e)).length + l.countP p = l.length := by
  induction l with
  | nil => rfl
  | cons e es ih =>
    cases h : p e with
    | true => simp [List.filter, List.countP_cons, h]; omega
    | false => simp [List.filter, List.countP_cons, h]; omega

/-! ## Characterization of `update_or_create_entry` -/

/-- Shape of the record mutated by the UPDATE branch. -/
def updatedEntry (e : RouteEntry) (now : Int) (oiface : Option Iface)
    (metric admin_distance : Nat) (is_active : Bool) (routing_table : String)
    (pl : Nat) : RouteEntry :=
  { e with
    last_seen := now
    metric := metric
    admin_distance := admin_distance
    is_active := is_active
    prefixLength := pl
    routing_table := routing_table
    outgoing_interface := oiface }

/-- Shape of the record constructed by the INSERT branch. -/
def newRouteEntry (now : Int) (device : Nat) (net : IpNet) (proto : String)
    (vrf : Option Nat) (next_hop : String) (oiface : Option Iface)
    (metric admin_distance : Nat) (is_active : Bool) (routing_table : String) :
    RouteEntry :=
  { device := device
    vrf := vrf
    network := net
    prefixLength := net.prefixLen
    protocol := proto
    next_hop := next_hop
    outgoing_interface := oiface
    metric := metric
    admin_distance := admin_distance
    is_active := is_active
    routing_table := routing_table
    first_seen := now
    last_seen := now }

theorem findRoute_key (store : List RouteEntry)
    (k : Nat × Option Nat × IpNet × String × String) (e : RouteEntry)
    (h : findRoute store k = some e) : routeKey e = k := by
  have h1 := List.find?_some h
  exact of_decide_eq_true h1

theorem update_or_create_found
    (store : List RouteEntry) (now : Int) (device : Nat)
    (network protocol : String) (vrf : Option Nat) (next_hop : String)
    (oiface : Option Iface) (metric admin_distance : Nat) (is_active : Bool)
    (routing_table : String) (net : IpNet) (e : RouteEntry)
    (hnet : ip_network network = some net)
    (hfind : findRoute store (device, vrf, net, next_hop, normalizeProtocol protocol) = some e)
    (hpro : VALID_PROTOCOLS.contains (normalizeProtocol protocol) = true)
    (hifc : ifaceOk oiface device = true) :
    update_or_create_entry store now device network protocol vrf next_hop oiface
        metric admin_distance is_active routing_table
      = Except.ok
          (updateFirst
            (fun x => decide (routeKey x = (device, vrf, net, next_hop, normalizeProtocol protocol)))
            (fun _ => updatedEntry e now oiface metric admin_distance is_active routing_table net.prefixLen)
            store,
           updatedEntry e now oiface metric admin_distance is_active routing_table net.prefixLen,
           false) := by
  have hkey := findRoute_key _ _ _ hfind
  simp only [routeKey, Prod.mk.injEq] at hkey
  obtain ⟨hd, hv, hn, hh, hp⟩ := hkey
  have hvalid : entryValid
      (updatedEntry e now oiface metric admin_distance is_active routing_table net.prefixLen) = true := by
    simp [entryValid, updatedEntry, hp, hd, hifc]
    simpa using hpro
  simp only [update_or_create_entry, hnet, hfind, updatedEntry] at hvalid ⊢
  rw [hvalid]
  simp

theorem update_or_create_none
    (store : List RouteEntry) (now : Int) (device : Nat)
    (network protocol : String) (vrf : Option Nat) (next_hop : String)
    (oiface : Option Iface) (metric admin_distance : Nat) (is_active : Bool)
    (routing_table : String) (net : IpNet)
    (hnet : ip_network network = some net)
    (hfind : findRoute store (device, vrf, net, next_hop, normalizeProtocol protocol) = none)
    (hpro : VALID_PROTOCOLS.contains (normalizeProtocol protocol) = true)
    (hifc : ifaceOk oiface device = true) :
    update_or_create_entry store now device network protocol vrf next_hop oiface
        metric admin_distance is_active routing_table
      = Except.ok
          (store ++ [newRouteEntry now device net (normalizeProtocol protocol) vrf
              next_hop oiface metric admin_distance is_active routing_table],
           newRouteEntry now device net (normalizeProtocol protocol) vrf
              next_hop oiface metric admin_distance is_active routing_table,
           true) := by
  have hvalid : entryValid
      (newRouteEntry now device net (normalizeProtocol protocol) vrf next_hop
        oiface metric admin_distance is_active routing_table) = true := by
    simp [entryValid, newRouteEntry, hifc]
    simpa using hpro
  simp only [update_or_create_entry, hnet, hfind, newRouteEntry] at hvalid ⊢
  rw [hvalid]
  simp

/-- Membership/field summary of a successful upsert: every row of the output
store is an untouched input row or the returned record, and the returned
record's `is_active` is the supplied value. -/
theorem update_or_create_mem
    (store : List RouteEntry) (now : Int) (device : Nat)
    (network protocol : String) (vrf : Option Nat) (next_hop : String)
    (oiface : Option Iface) (metric admin_distance : Nat) (is_active : Bool)
    (routing_table : String) (s1 : List RouteEntry) (r : RouteEntry) (c : Bool)
    (h : update_or_create_entry store now device network protocol vrf next_hop oiface
        metric admin_distance is_active routing_table = Except.ok (s1, r, c)) :
    (∀ x ∈ s1, x ∈ store ∨ x = r) ∧ r.is_active = is_active := by
  cases hn : ip_network network with
  | none =>
    simp only [update_or_create_entry, hn] at h
    cases h
  | some net =>
    cases hf : findRoute store (device, vrf, net, next_hop, normalizeProtocol protocol) with
    | some e =>
      simp only [update_or_create_entry, hn, hf] at h
      split at h
      · simp only [Except.ok.injEq, Prod.mk.injEq] at h
        obtain ⟨h1, h2, h3⟩ := h
        subst h1
        subst h2
        refine ⟨?_, rfl⟩
        intro x hx
        exact mem_updateFirst_const _ _ _ _ hx
      · cases h
    | none =>
      simp only [update_or_create_entry, hn, hf] at h
      split at h
      · simp only [Except.ok.injEq, Prod.mk.injEq] at h
        obtain ⟨h1, h2, h3⟩ := h
        subst h1
        subst h2
        refine ⟨?_, rfl⟩
        intro x hx
        rcases List.mem_append.mp hx with h4 | h4
        · exact Or.inl h4
        · right
          simpa using h4
      · cases h

/-- C1: with a parsable network, a protocol normalizing into the model's
choices and a well-owned interface, `update_or_create_entry` on an existing
identity key `(device, vrf, network, next_hop, protocol)` overwrites that
record's `metric`, `admin_distance`, `is_active`, `routing_table` and
`outgoing_interface`, sets `last_seen` to the current time, leaves
`first_seen` unchanged and returns `(record, false)`; with no matching
record it creates one with `first_seen = last_seen` equal to the observation
time and returns `(record, true)`. -/
theorem C1_update_or_create_entry_spec
    (store : List RouteEntry) (now : Int) (device : Nat)
    (network protocol : String) (vrf : Option Nat) (next_hop : String)
    (oiface : Option Iface) (metric admin_distance : Nat) (is_active : Bool)
    (routing_table : String) (net : IpNet)
    (hnet : ip_network network = some net)
    (hpro : VALID_PROTOCOLS.contains (normalizeProtocol protocol) = true)
    (hifc : ifaceOk oiface device = true) :
    (∀ e, findRoute store (device, vrf, net, next_hop, normalizeProtocol protocol) = some e →
      update_or_create_entry store now device network protocol vrf next_hop oiface
          metric admin_distance is_active routing_table
        = Except.ok
            (updateFirst
              (fun x => decide (routeKey x = (device, vrf, net, next_hop, normalizeProtocol protocol)))
              (fun _ => updatedEntry e now oiface metric admin_distance is_active routing_table net.prefixLen)
              store,
             updatedEntry e now oiface metric admin_distance is_active routing_table net.prefixLen,
             false)
      ∧ (updatedEntry e now oiface metric admin_distance is_active routing_table net.prefixLen).first_seen
          = e.first_seen
      ∧ (updatedEntry e now oiface metric admin_distance is_active routing_table net.prefixLen).last_seen
          = now
      ∧ (updatedEntry e now oiface metric admin_distance is_active routing_table net.prefixLen).metric
          = metric
      ∧ (updatedEntry e now oiface metric admin_distance is_active routing_table net.prefixLen).admin_distance
          = admin_distance
      ∧ (updatedEntry e now oiface metric admin_distance is_active routing_table net.prefixLen).is_active
          = is_active
      ∧ (updatedEntry e now oiface metric admin_distance is_active routing_table net.prefixLen).routing_table
          = routing_table
      ∧ (updatedEntry e now oiface metric admin_distance is_active routing_table net.prefixLen).outgoing_interface
          = oiface)
    ∧ (findRoute store (device, vrf, net, next_hop, normalizeProtocol protocol) = none →
      update_or_create_entry store now device network protocol vrf next_hop oiface
          metric admin_distance is_active routing_table
        = Except.ok
            (store ++ [newRouteEntry now device net (normalizeProtocol protocol) vrf
                next_hop oiface metric admin_distance is_active routing_table],
             newRouteEntry now device net (normalizeProtocol protocol) vrf
                next_hop oiface metric admin_distance is_active routing_table,
             true)
      ∧ (newRouteEntry now device net (normalizeProtocol protocol) vrf next_hop oiface
          metric admin_distance is_active routing_table).first_seen = now
      ∧ (newRouteEntry now device net (normalizeProtocol protocol) vrf next_hop oiface
          metric admin_distance is_active routing_table).last_seen = now) := by
  constructor
  · intro e hfind
    exact ⟨update_or_create_found store now device network protocol vrf next_hop oiface
        metric admin_distance is_active routing_table net e hnet hfind hpro hifc,
      rfl, rfl, rfl, rfl, rfl, rfl, rfl⟩
  · intro hfind
    exact ⟨update_or_create_none store now device network protocol vrf next_hop oiface
        metric admin_distance is_active routing_table net hnet hfind hpro hifc,
      rfl, rfl⟩

def routeNet10 : IpNet := ⟨4, 167772160, 8⟩

def sampleEntry : RouteEntry :=
  newRouteEntry 50 1 routeNet10 "ospf" none "1.2.3.4" none 0 0 true "default"

/-- Witness for C1, exercising the UPDATE branch on a one-row store. -/
theorem C1_witness :
    ip_network "10.0.0.0/8" = some routeNet10
    ∧ VALID_PROTOCOLS.contains (normalizeProtocol "OSPF") = true
    ∧ ifaceOk none 1 = true
    ∧ findRoute [sampleEntry] (1, none, routeNet10, "1.2.3.4", normalizeProtocol "OSPF")
        = some sampleEntry
    ∧ (update_or_create_entry [sampleEntry] 100 1 "10.0.0.0/8" "OSPF" none "1.2.3.4" none
          5 110 false "vrfX"
        = Except.ok
            (updateFirst
              (fun x => decide (routeKey x = (1, none, routeNet10, "1.2.3.4", normalizeProtocol "OSPF")))
              (fun _ => updatedEntry sampleEntry 100 none 5 110 false "vrfX" routeNet10.prefixLen)
              [sampleEntry],
             updatedEntry sampleEntry 100 none 5 110 false "vrfX" routeNet10.prefixLen,
             false)
      ∧ (updatedEntry sampleEntry 100 none 5 110 false "vrfX" routeNet10.prefixLen).first_seen
          = sampleEntry.first_seen
      ∧ (updatedEntry sampleEntry 100 none 5 110 false "vrfX" routeNet10.prefixLen).last_seen = 100
      ∧ (updatedEntry sampleEntry 100 none 5 110 false "vrfX" routeNet10.prefixLen).metric = 5
      ∧ (updatedEntry sampleEntry 100 none 5 110 false "vrfX" routeNet10.prefixLen).admin_distance = 110
      ∧ (updatedEntry sampleEntry 100 none 5 110 false "vrfX" routeNet10.prefixLen).is_active = false
      ∧ (updatedEntry sampleEntry 100 none 5 110 false "vrfX" routeNet10.prefixLen).routing_table = "vrfX"
      ∧ (updatedEntry sampleEntry 100 none 5 110 false "vrfX" routeNet10.prefixLen).outgoing_interface
          = none) :=
  ⟨by decide, by decide, by decide, by decide,
   (C1_update_or_create_entry_spec [sampleEntry] 100 1 "10.0.0.0/8" "OSPF" none "1.2.3.4"
      none 5 110 false "vrfX" routeNet10 (by decide) (by decide) (by decide)).1
     sampleEntry (by decide)⟩

theorem routeKey_updatedEntry (e : RouteEntry) (now : Int) (oiface : Option Iface)
    (metric admin_distance : Nat) (is_active : Bool) (routing_table : String)
    (pl : Nat) :
    routeKey (updatedEntry e now oiface metric admin_distance is_active routing_table pl)
      = routeKey e := rfl

theorem routeKey_newRouteEntry (now : Int) (device : Nat) (net : IpNet)
    (proto : String) (vrf : Option Nat) (next_hop : String) (oiface : Option Iface)
    (metric admin_distance : Nat) (is_active : Bool) (routing_table : String) :
    routeKey (newRouteEntry now device net proto vrf next_hop oiface metric
        admin_distance is_active routing_table)
      = (device, vrf, net, next_hop, proto) := rfl

/-- Repeated reconciliation of one observation: one `update_or_create_entry`
call per element of `times`, threading the store. -/
def upsertIter (device : Nat) (network protocol : String) (vrf : Option Nat)
    (next_hop : String) (oiface : Option Iface) (metric admin_distance : Nat)
    (is_active : Bool) (routing_table : String) :
    List RouteEntry → List Int → Except String (List RouteEntry)
  | store, [] => Except.ok store
  | store, t :: ts =>
    match update_or_create_entry store t device network protocol vrf next_hop oiface
        metric admin_distance is_active routing_table with
    | Except.error msg => Except.error msg
    | Except.ok r => upsertIter device network protocol vrf next_hop oiface metric
        admin_distance is_active routing_table r.1 ts

theorem upsertIter_found (device : Nat) (network protocol : String)
    (vrf : Option Nat) (next_hop : String) (oiface : Option Iface)
    (metric admin_distance : Nat) (is_active : Bool) (routing_table : String)
    (net : IpNet)
    (hnet : ip_network network = some net)
    (hpro : VALID_PROTOCOLS.contains (normalizeProtocol protocol) = true)
    (hifc : ifaceOk oiface device = true) :
    ∀ (ts : List Int) (store : List RouteEntry) (e : RouteEntry),
      findRoute store (device, vrf, net, next_hop, normalizeProtocol protocol) = some e →
      ∃ s2 e2, upsertIter device network protocol vrf next_hop oiface metric
          admin_distance is_active routing_table store ts = Except.ok s2
        ∧ s2.length = store.length
        ∧ findRoute s2 (device, vrf, net, next_hop, normalizeProtocol protocol) = some e2
        ∧ e2.first_seen = e.first_seen
        ∧ e2.last_seen = ts.getLastD e.last_seen := by
  intro ts
  induction ts with
  | nil =>
    intro store e hfind
    exact ⟨store, e, rfl, rfl, hfind, rfl, rfl⟩
  | cons t ts ih =>
    intro store e hfind
    have hupd := update_or_create_found store t device network protocol vrf next_hop
      oiface metric admin_distance is_active routing_table net e hnet hfind hpro hifc
    have hfind1 := find?_updateFirst
      (fun x => decide (routeKey x = (device, vrf, net, next_hop, normalizeProtocol protocol)))
      (fun _ => updatedEntry e t oiface metric admin_distance is_active routing_table net.prefixLen)
      store e hfind
      (by
        apply decide_eq_true
        rw [routeKey_updatedEntry]
        exact findRoute_key _ _ _ hfind)
    obtain ⟨s2, e2, hrun, hlen, hfind2, hfs, hls⟩ := ih _ _ hfind1
    refine ⟨s2, e2, ?_, ?_, hfind2, ?_, ?_⟩
    · simp only [upsertIter, hupd]
      exact hrun
    · rw [hlen, updateFirst_length]
    · exact hfs
    · rw [hls, List.getLastD_cons]
      rfl

theorem findRoute_after_upsert (store : List RouteEntry) (t0 : Int) (device : Nat)
    (network protocol : String) (vrf : Option Nat) (next_hop : String)
    (oiface : Option Iface) (metric admin_distance : Nat) (is_active : Bool)
    (routing_table : String) (net : IpNet) (s1 : List RouteEntry)
    (e1 : RouteEntry) (c1 : Bool)
    (hnet : ip_network network = some net)
    (hpro : VALID_PROTOCOLS.contains (normalizeProtocol protocol) = true)
    (hifc : ifaceOk oiface device = true)
    (h1 : update_or_create_entry store t0 device network protocol vrf next_hop oiface
        metric admin_distance is_active routing_table = Except.ok (s1, e1, c1)) :
    findRoute s1 (device, vrf, net, next_hop, normalizeProtocol protocol) = some e1 := by
  cases hf : findRoute store (device, vrf, net, next_hop, normalizeProtocol protocol) with
  | some e =>
    rw [update_or_create_found store t0 device network protocol vrf next_hop oiface
      metric admin_distance is_active routing_table net e hnet hf hpro hifc] at h1
    simp only [Except.ok.injEq, Prod.mk.injEq] at h1
    obtain ⟨hs, he, hc⟩ := h1
    subst hs
    subst he
    apply find?_updateFirst
      (fun x => decide (routeKey x = (device, vrf, net, next_hop, normalizeProtocol protocol)))
      (fun _ => updatedEntry e t0 oiface metric admin_distance is_active routing_table net.prefixLen)
      store e hf
    apply decide_eq_true
    rw [routeKey_updatedEntry]
    exact findRoute_key _ _ _ hf
  | none =>
    rw [update_or_create_none store t0 device network protocol vrf next_hop oiface
      metric admin_distance is_active routing_table net hnet hf hpro hifc] at h1
    simp only [Except.ok.injEq, Prod.mk.injEq] at h1
    obtain ⟨hs, he, hc⟩ := h1
    subst hs
    subst he
    exact find?_append_last_pos _ store _ hf (decide_eq_true (routeKey_newRouteEntry _ _ _ _ _ _ _ _ _ _ _))

theorem le_getLastD_of_chain (a : Int) (ts : List Int)
    (h : List.Chain' (fun x y => x ≤ y) (a :: ts)) : a ≤ ts.getLastD a := by
  induction ts generalizing a with
  | nil => simp [List.getLastD]
  | cons t ts ih =>
    rw [List.getLastD_cons]
    have h1 := List.chain'_cons.mp h
    exact le_trans h1.1 (ih t h1.2)

/-- C3: after a successful upsert, re-upserting the same identity key with the
same mutable fields any number of times keeps the store size unchanged (no
second row), leaves the row's `first_seen` at its original value, and moves
its `last_seen` to the latest call time — which, for non-decreasing call
times, never decreases. -/
theorem C3_upsert_idempotent
    (store0 : List RouteEntry) (t0 : Int) (device : Nat)
    (network protocol : String) (vrf : Option Nat) (next_hop : String)
    (oiface : Option Iface) (metric admin_distance : Nat) (is_active : Bool)
    (routing_table : String) (net : IpNet) (s1 : List RouteEntry)
    (e1 : RouteEntry) (c1 : Bool) (ts : List Int)
    (hnet : ip_network network = some net)
    (hpro : VALID_PROTOCOLS.contains (normalizeProtocol protocol) = true)
    (hifc : ifaceOk oiface device = true)
    (h1 : update_or_create_entry store0 t0 device network protocol vrf next_hop oiface
        metric admin_distance is_active routing_table = Except.ok (s1, e1, c1)) :
    ((upsertIter device network protocol vrf next_hop oiface metric admin_distance
        is_active routing_table s1 ts).toOption.map List.length = some s1.length)
    ∧ (((upsertIter device network protocol vrf next_hop oiface metric admin_distance
          is_active routing_table s1 ts).toOption.bind
          (fun s2 => findRoute s2 (device, vrf, net, next_hop, normalizeProtocol protocol))).map
        (fun e2 => e2.first_seen) = some e1.first_seen)
    ∧ (((upsertIter device network protocol vrf next_hop oiface metric admin_distance
          is_active routing_table s1 ts).toOption.bind
          (fun s2 => findRoute s2 (device, vrf, net, next_hop, normalizeProtocol protocol))).map
        (fun e2 => e2.last_seen) = some (ts.getLastD e1.last_seen))
    ∧ (List.Chain' (fun a b => a ≤ b) (e1.last_seen :: ts) →
        e1.last_seen ≤ ts.getLastD e1.last_seen) := by
  have hf1 := findRoute_after_upsert store0 t0 device network protocol vrf next_hop
    oiface metric admin_distance is_active routing_table net s1 e1 c1 hnet hpro hifc h1
  obtain ⟨s2, e2, hrun, hlen, hfind2, hfs, hls⟩ :=
    upsertIter_found device network protocol vrf next_hop oiface metric admin_distance
      is_active routing_table net hnet hpro hifc ts s1 e1 hf1
  refine ⟨?_, ?_, ?_, le_getLastD_of_chain _ _⟩
  · rw [hrun]
    simp [Except.toOption, hlen]
  · rw [hrun]
    simp [Except.toOption, hfind2, hfs]
  · rw [hrun]
    simp [Except.toOption, hfind2, hls]

/-- Witness for C3: one creation at time 50, then re-upserts at 60 and 70. -/
theorem C3_witness :
    ip_network "10.0.0.0/8" = some routeNet10
    ∧ VALID_PROTOCOLS.contains (normalizeProtocol "ospf") = true
    ∧ ifaceOk none 1 = true
    ∧ update_or_create_entry [] 50 1 "10.0.0.0/8" "ospf" none "1.2.3.4" none 0 0 true "default"
        = Except.ok ([sampleEntry], sampleEntry, true)
    ∧ ((upsertIter 1 "10.0.0.0/8" "ospf" none "1.2.3.4" none 0 0 true "default"
        [sampleEntry] [60, 70]).toOption.map List.length = some 1)
    ∧ (((upsertIter 1 "10.0.0.0/8" "ospf" none "1.2.3.4" none 0 0 true "default"
          [sampleEntry] [60, 70]).toOption.bind
          (fun s2 => findRoute s2 (1, none, routeNet10, "1.2.3.4", normalizeProtocol "ospf"))).map
        (fun e2 => e2.first_seen) = some 50)
    ∧ (((upsertIter 1 "10.0.0.0/8" "ospf" none "1.2.3.4" none 0 0 true "default"
          [sampleEntry] [60, 70]).toOption.bind
          (fun s2 => findRoute s2 (1, none, routeNet10, "1.2.3.4", normalizeProtocol "ospf"))).map
        (fun e2 => e2.last_seen) = some 70) := by
  have h := C3_upsert_idempotent [] 50 1 "10.0.0.0/8" "ospf" none "1.2.3.4" none 0 0
    true "default" routeNet10 [sampleEntry] sampleEntry true [60, 70]
    (by decide) (by decide) (by decide) rfl
  exact ⟨by decide, by decide, by decide, rfl, h.1, h.2.1, h.2.2.1⟩

/-- Reconciliation of one prefix with several next-hop observations: one
`update_or_create_entry` call per next-hop, threading the store. -/
def upsertNextHops (now : Int) (device : Nat) (network protocol : String)
    (vrf : Option Nat) (oiface : Option Iface) (metric admin_distance : Nat)
    (is_active : Bool) (routing_table : String) :
    List RouteEntry → List String → Except String (List RouteEntry)
  | store, [] => Except.ok store
  | store, nh :: nhs =>
    match update_or_create_entry store now device network protocol vrf nh oiface
        metric admin_distance is_active routing_table with
    | Except.error msg => Except.error msg
    | Except.ok r => upsertNextHops now device network protocol vrf oiface metric
        admin_distance is_active routing_table r.1 nhs

theorem upsertNextHops_fresh (now : Int) (device : Nat)
    (network protocol : String) (vrf : Option Nat) (oiface : Option Iface)
    (metric admin_distance : Nat) (is_active : Bool) (routing_table : String)
    (net : IpNet)
    (hnet : ip_network network = some net)
    (hpro : VALID_PROTOCOLS.contains (normalizeProtocol protocol) = true)
    (hifc : ifaceOk oiface device = true) :
    ∀ (nhs : List String) (store : List RouteEntry),
      nhs.Nodup →
      (∀ nh ∈ nhs, findRoute store (device, vrf, net, nh, normalizeProtocol protocol) = none) →
      upsertNextHops now device network protocol vrf oiface metric admin_distance
          is_active routing_table store nhs
        = Except.ok (store ++ nhs.map (fun nh => newRouteEntry now device net
            (normalizeProtocol protocol) vrf nh oiface metric admin_distance
            is_active routing_table)) := by
  intro nhs
  induction nhs with
  | nil =>
    intro store _ _
    simp [upsertNextHops]
  | cons nh nhs ih =>
    intro store hnodup hfresh
    have hstep := update_or_create_none store now device network protocol vrf nh oiface
      metric admin_distance is_active routing_table net hnet
      (hfresh nh (List.mem_cons_self _ _)) hpro hifc
    have hnotin : nh ∉ nhs := (List.nodup_cons.mp hnodup).1
    have hrest : ∀ nh2 ∈ nhs,
        findRoute (store ++ [newRouteEntry now device net (normalizeProtocol protocol)
          vrf nh oiface metric admin_distance is_active routing_table])
          (device, vrf, net, nh2, normalizeProtocol protocol) = none := by
      intro nh2 hnh2
      apply find?_append_last_none _ _ _ (hfresh nh2 (List.mem_cons_of_mem _ hnh2))
      apply decide_eq_false
      intro hcontra
      rw [routeKey_newRouteEntry] at hcontra
      simp only [Prod.mk.injEq] at hcontra
      exact hnotin (hcontra.2.2.2.1 ▸ hnh2)
    simp only [upsertNextHops, hstep]
    rw [ih _ (List.nodup_cons.mp hnodup).2 hrest]
    simp

/-- C4: for a fixed `(device, vrf, network, protocol)` and pairwise-distinct
next-hops, upserting every observation into an empty store yields exactly one
stored row per next-hop — N rows for N next-hops, not one row holding a
collection. -/
theorem C4_ecmp_rows (now : Int) (device : Nat) (network protocol : String)
    (vrf : Option Nat) (oiface : Option Iface) (metric admin_distance : Nat)
    (is_active : Bool) (routing_table : String) (net : IpNet) (nhs : List String)
    (hnet : ip_network network = some net)
    (hpro : VALID_PROTOCOLS.contains (normalizeProtocol protocol) = true)
    (hifc : ifaceOk oiface device = true)
    (hnodup : nhs.Nodup) :
    upsertNextHops now device network protocol vrf oiface metric admin_distance
        is_active routing_table [] nhs
      = Except.ok (nhs.map (fun nh => newRouteEntry now device net
          (normalizeProtocol protocol) vrf nh oiface metric admin_distance
          is_active routing_table))
    ∧ (nhs.map (fun nh => newRouteEntry now device net (normalizeProtocol protocol)
        vrf nh oiface metric admin_distance is_active routing_table)).length
      = nhs.length := by
  have h := upsertNextHops_fresh now device network protocol vrf oiface metric
    admin_distance is_active routing_table net hnet hpro hifc nhs [] hnodup
    (by intro nh _; rfl)
  constructor
  · simpa using h
  · simp

def routeNet102 : IpNet := ⟨4, 167903232, 24⟩

/-- Witness for C4: two ECMP next-hops for one BGP prefix give two rows. -/
theorem C4_witness :
    ip_network "10.2.0.0/24" = some routeNet102
    ∧ VALID_PROTOCOLS.contains (normalizeProtocol "bgp") = true
    ∧ ifaceOk none 1 = true
    ∧ (["10.0.0.1", "10.0.0.2"] : List String).Nodup
    ∧ upsertNextHops 100 1 "10.2.0.0/24" "bgp" none none 0 20 true "default"
        [] ["10.0.0.1", "10.0.0.2"]
      = Except.ok ((["10.0.0.1", "10.0.0.2"] : List String).map
          (fun nh => newRouteEntry 100 1 routeNet102 (normalizeProtocol "bgp") none nh
            none 0 20 true "default"))
    ∧ ((["10.0.0.1", "10.0.0.2"] : List String).map
        (fun nh => newRouteEntry 100 1 routeNet102 (normalizeProtocol "bgp") none nh
          none 0 20 true "default")).length = 2 := by
  have h := C4_ecmp_rows 100 1 "10.2.0.0/24" "bgp" none none 0 20 true "default"
    routeNet102 ["10.0.0.1", "10.0.0.2"] (by decide) (by decide) (by decide) (by decide)
  exact ⟨by decide, by decide, by decide, by decide, h.1, h.2⟩

/-- C2: with `commit` the purge deletes exactly the records whose `last_seen`
is older than `now` minus `retention_days` days and returns the deleted
count; without `commit` it deletes nothing and returns the count of records
that would be deleted. -/
theorem C2_purge_spec : ∀ (store : List RouteEntry) (now : Int) (retention_days : Nat),
    (PurgeOldRoutesJob_run store now retention_days true).2
      = store.countP (fun e => decide (e.last_seen < now - (retention_days : Int) * 86400))
    ∧ (PurgeOldRoutesJob_run store now retention_days true).1
      = store.filter (fun e => ! decide (e.last_seen < now - (retention_days : Int) * 86400))
    ∧ (PurgeOldRoutesJob_run store now retention_days true).1.length
        + (PurgeOldRoutesJob_run store now retention_days true).2 = store.length
    ∧ (∀ e, e ∈ (PurgeOldRoutesJob_run store now retention_days true).1
        ↔ e ∈ store ∧ ¬ (e.last_seen < now - (retention_days : Int) * 86400))
    ∧ (PurgeOldRoutesJob_run store now retention_days false).1 = store
    ∧ (PurgeOldRoutesJob_run store now retention_days false).2
      = (PurgeOldRoutesJob_run store now retention_days true).2 := by
  intro store now retention_days
  refine ⟨?_, rfl, ?_, ?_, rfl, rfl⟩
  · simp [PurgeOldRoutesJob_run, stale, List.countP_eq_length_filter]
  · simp only [PurgeOldRoutesJob_run, if_true, stale, List.countP_eq_length_filter]
    exact length_filter_not_add_countP _ store ▸
      (by rw [List.countP_eq_length_filter])
  · intro e
    simp [PurgeOldRoutesJob_run, List.mem_filter]

/-- C6: `is_excluded_route` holds exactly when the input parses as a network
that is equal to, or a subnet of, one of the six reserved ranges of the same
address family; the spec's concrete examples behave as stated and unparsable
input is never excluded. -/
theorem C6_is_excluded_route_spec :
    (∀ s : String, is_excluded_route s = true ↔
      ∃ net, ip_network s = some net ∧ ∃ excluded ∈ EXCLUDED_NETWORKS,
        net.version = excluded.version ∧ (subnet_of net excluded = true ∨ net = excluded))
    ∧ EXCLUDED_NETWORKS.length = 6
    ∧ is_excluded_route "224.0.0.0/4" = true
    ∧ is_excluded_route "239.1.2.0/24" = true
    ∧ is_excluded_route "169.254.0.0/16" = true
    ∧ is_excluded_route "127.0.0.1/32" = true
    ∧ is_excluded_route "ff00::/8" = true
    ∧ is_excluded_route "fe80::1/128" = true
    ∧ is_excluded_route "10.0.0.0/8" = false
    ∧ is_excluded_route "0.0.0.0/0" = false
    ∧ is_excluded_route "2001:db8::/32" = false
    ∧ is_excluded_route "not-a-network" = false := by
  refine ⟨?_, by decide, by decide, by decide, by decide, by decide, by decide, by decide,
    by decide, by decide, by decide, by decide⟩
  intro s
  cases h : ip_network s with
  | none => simp [is_excluded_route, h]
  | some net =>
    simp [is_excluded_route, h, List.any_eq_true, Bool.and_eq_true, Bool.or_eq_true,
      decide_eq_true_eq]

theorem filter_pk_eq (l : List DeviceRec) (d : DeviceRec) (hmem : d ∈ l)
    (hnodup : (l.map (fun x => x.pk)).Nodup) :
    l.filter (fun x => decide (x.pk = d.pk)) = [d] := by
  induction l with
  | nil => simp at hmem
  | cons y ys ih =>
    rw [List.map_cons, List.nodup_cons] at hnodup
    rcases List.mem_cons.mp hmem with h | h
    · subst h
      rw [List.filter_cons_of_pos (by simp)]
      have hnil : ys.filter (fun x => decide (x.pk = d.pk)) = [] := by
        rw [List.filter_eq_nil_iff]
        intro x hx
        simp only [decide_eq_true_eq]
        intro hpk
        exact hnodup.1 (hpk ▸ List.mem_map_of_mem (fun x => x.pk) hx)
      rw [hnil]
    · have hne : ¬ (y.pk = d.pk) := by
        intro hpk
        exact hnodup.1 (hpk ▸ List.mem_map_of_mem (fun x => x.pk) h)
      rw [List.filter_cons_of_neg (by simpa using hne)]
      exact ih h hnodup.2

/-- C9: with an explicit device supplied, `get_target_devices` returns exactly
that device — every other filter input is ignored and none of the
status/management-address/platform restrictions of the filtered path apply. -/
theorem C9_explicit_device (allDevices : List DeviceRec) (d : DeviceRec)
    (hmem : d ∈ allDevices) (hnodup : (allDevices.map (fun x => x.pk)).Nodup)
    (dynamic_group : Option (List Nat)) (device_role : List Nat)
    (location : List (List Nat)) (tag : List Nat) :
    get_target_devices allDevices (some d) dynamic_group device_role location tag = [d] := by
  simp only [get_target_devices]
  exact filter_pk_eq allDevices d hmem hnodup

def offlineDevice : DeviceRec := ⟨1, "Offline", none, false, 0, 0, []⟩

def inventoryc : List DeviceRec :=
  [offlineDevice, ⟨2, "Active", some "cisco_ios", true, 5, 7, [9]⟩]

/-- Witness for C9: the explicit device is returned although it is offline,
has no platform and no primary address, and every other filter is set to
exclude it. -/
theorem C9_witness :
    offlineDevice ∈ inventoryc
    ∧ (inventoryc.map (fun x => x.pk)).Nodup
    ∧ get_target_devices inventoryc (some offlineDevice) (some [2]) [5] [[7]] [9]
        = [offlineDevice] :=
  ⟨by decide, by decide,
   C9_explicit_device inventoryc offlineDevice (by decide) (by decide) (some [2]) [5] [[7]] [9]⟩

theorem protocol_coerce_valid (p : String) :
    VALID_PROTOCOLS.contains (if VALID_PROTOCOLS.contains p then p else "unknown") = true := by
  by_cases h : VALID_PROTOCOLS.contains p = true
  · rw [if_pos h]
    exact h
  · rw [if_neg h]
    decide

theorem eosProtocol_valid (rt : Option String) :
    VALID_PROTOCOLS.contains (eosProtocol rt) = true := by
  unfold eosProtocol
  exact protocol_coerce_valid _

theorem iosProtocol_valid (code : String) :
    VALID_PROTOCOLS.contains (iosProtocol code) = true := by
  unfold iosProtocol
  exact protocol_coerce_valid _

/-- Field facts for every nexthop dict built by the EOS parser for one route:
the protocol is the normalized route type and `current_active` is `True`. -/
theorem eosNexthops_fields (vrf_name : String) (rd : EosRoute) :
    ∀ nh ∈ eosNexthops vrf_name rd,
      nh.protocol = eosProtocol rd.routeType ∧ nh.current_active = true := by
  intro nh hnh
  simp only [eosNexthops] at hnh
  split at hnh
  · rw [List.mem_singleton] at hnh
    subst hnh
    exact ⟨rfl, rfl⟩
  · rcases List.mem_map.mp hnh with ⟨via, hvia, h⟩
    subst h
    exact ⟨rfl, rfl⟩

/-- Generic preservation of a predicate along `List.foldl`. -/
theorem foldl_pres {α β : Type} (P : β → Prop) (f : β → α → β) :
    ∀ (l : List α) (b : β), (∀ x b2, x ∈ l → P b2 → P (f b2 x)) → P b →
      P (l.foldl f b)
  | [], _, _, hb => hb
  | x :: xs, b, hstep, hb =>
    foldl_pres P f xs (f b x)
      (fun y b2 hy => hstep y b2 (List.mem_cons_of_mem _ hy))
      (hstep x b (List.mem_cons_self _ _) hb)

theorem all_extendAt (P : Nexthop → Bool) (k : String) (vs : List Nexthop)
    (hvs : vs.all P = true) :
    ∀ m : List (String × List Nexthop), m.all (fun pr => pr.2.all P) = true →
      (extendAt m k vs).all (fun pr => pr.2.all P) = true := by
  intro m
  induction m with
  | nil =>
    intro _
    simp [extendAt, hvs]
  | cons hd tl ih =>
    intro hm
    rcases hd with ⟨k1, vs1⟩
    rw [List.all_cons, Bool.and_eq_true] at hm
    obtain ⟨hm1, hm2⟩ := hm
    by_cases hk : k1 = k
    · simp only [extendAt]
      rw [if_pos hk, List.all_cons, Bool.and_eq_true, List.all_append, Bool.and_eq_true]
      exact ⟨⟨hm1, hvs⟩, hm2⟩
    · simp only [extendAt]
      rw [if_neg hk, List.all_cons, Bool.and_eq_true]
      exact ⟨hm1, ih hm2⟩

theorem parse_eos_routes_all (P : Nexthop → Bool)
    (hnh : ∀ vrf_name rd, (eosNexthops vrf_name rd).all P = true) (data : EosData) :
    (parse_eos_routes data).all (fun pr => pr.2.all P) = true := by
  unfold parse_eos_routes
  apply foldl_pres (fun routes : List (String × List Nexthop) =>
    routes.all (fun pr => pr.2.all P) = true)
  · intro vrfPair routes _ hroutes
    apply foldl_pres (fun routes : List (String × List Nexthop) =>
      routes.all (fun pr => pr.2.all P) = true)
    · intro routePair routes2 _ hroutes2
      exact all_extendAt P routePair.1 _ (hnh vrfPair.1 routePair.2) routes2 hroutes2
    · exact hroutes
  · rfl

theorem parse_ios_routes_all (P : Nexthop → Bool)
    (hrow : ∀ row : IosRow, P
      { protocol := iosProtocol row.PROTOCOL
        next_hop := pyOrStr row.NEXTHOP_IP ""
        outgoing_interface := pyOrStr row.NEXTHOP_IF ""
        preference := pyIntStr row.DISTANCE
        metric := pyIntStr row.METRIC
        current_active := true
        routing_table := pyOrStr row.VRF "default" } = true)
    (rows : List IosRow) :
    (parse_ios_routes rows).all (fun pr => pr.2.all P) = true := by
  unfold parse_ios_routes
  apply foldl_pres (fun routes : List (String × List Nexthop) =>
    routes.all (fun pr => pr.2.all P) = true)
  · intro row routes _ hroutes
    by_cases hfield : row.NETWORK = "" ∨ row.PREFIX_LENGTH = ""
    · rw [if_pos hfield]
      exact hroutes
    · rw [if_neg hfield]
      exact all_extendAt P _ _ (by simp [hrow row]) routes hroutes
  · rfl

/-- C8: both parsing strategies map device-reported protocol labels through
their fixed tables, send every unrecognized label to "unknown" instead of
raising, and therefore only ever emit protocols of the fixed enumeration;
the spec's concrete mappings hold. -/
theorem C8_protocol_mapping :
    (∀ rt : Option String, VALID_PROTOCOLS.contains (eosProtocol rt) = true)
    ∧ (∀ code : String, VALID_PROTOCOLS.contains (iosProtocol code) = true)
    ∧ (∀ data : EosData, (parse_eos_routes data).all
        (fun pr => pr.2.all (fun nh => VALID_PROTOCOLS.contains nh.protocol)) = true)
    ∧ (∀ rows : List IosRow, (parse_ios_routes rows).all
        (fun pr => pr.2.all (fun nh => VALID_PROTOCOLS.contains nh.protocol)) = true)
    ∧ eosProtocol (some "eBGP") = "bgp"
    ∧ eosProtocol (some "ospfInter") = "ospf"
    ∧ eosProtocol (some "aggregate") = "static"
    ∧ eosProtocol (some "unknownXYZ") = "unknown"
    ∧ iosProtocol "C" = "connected"
    ∧ iosProtocol "O" = "ospf"
    ∧ iosProtocol "B" = "bgp" := by
  refine ⟨eosProtocol_valid, iosProtocol_valid, ?_, ?_, by decide, by decide, by decide,
    by decide, by decide, by decide, by decide⟩
  · intro data
    apply parse_eos_routes_all
    intro vrf_name rd
    rw [List.all_eq_true]
    intro nh hnh
    have h := (eosNexthops_fields vrf_name rd nh hnh).1
    simp only [h]
    exact eosProtocol_valid _
  · intro rows
    apply parse_ios_routes_all
    intro row
    exact iosProtocol_valid _

theorem processNexthop_mem (v : String → Option Nat) (dev : Nat)
    (ifaces : List (String × Iface)) (now : Int) (pfx : String) (nh : Nexthop)
    (store0 : List RouteEntry) (hact : nh.current_active = true)
    (acc : List RouteEntry × DevCounters)
    (hacc : ∀ x ∈ acc.1, x ∈ store0 ∨ x.is_active = true) :
    ∀ x ∈ (processNexthop v dev ifaces now true pfx acc nh).1,
      x ∈ store0 ∨ x.is_active = true := by
  intro x hx
  simp only [processNexthop, not_true, if_false] at hx
  cases hres : update_or_create_entry acc.1 now dev pfx
      (pyOrStr (pyLower nh.protocol) "unknown")
      (if ["default", "inet.0", ""].contains (pyOrStr nh.routing_table "default") then none
        else v (pyOrStr nh.routing_table "default"))
      (pyOrStr nh.next_hop "")
      (if pyOrStr nh.outgoing_interface "" = "" then none
        else (ifaces.find? (fun p => decide (p.1 = pyOrStr nh.outgoing_interface ""))).map
          (fun p => p.2))
      nh.metric nh.preference nh.current_active
      (pyOrStr nh.routing_table "default") with
  | error msg =>
    rw [hres] at hx
    exact hacc x hx
  | ok r =>
    rw [hres] at hx
    rcases r with ⟨store1, rec, created⟩
    obtain ⟨hmem, hactive⟩ := update_or_create_mem acc.1 now dev pfx
      (pyOrStr (pyLower nh.protocol) "unknown") _ (pyOrStr nh.next_hop "") _
      nh.metric nh.preference nh.current_active (pyOrStr nh.routing_table "default")
      store1 rec created hres
    have hx1 : x ∈ store1 := by
      cases created with
      | true => simpa using hx
      | false => simpa using hx
    rcases hmem x hx1 with h | h
    · exact hacc x h
    · right
      rw [h, hactive, hact]

theorem processRoutes_active (v : String → Option Nat) (dev : Nat)
    (ifaces : List (String × Iface)) (now : Int)
    (routes : List (String × List Nexthop))
    (hact : routes.all (fun pr => pr.2.all (fun nh => nh.current_active)) = true)
    (store : List RouteEntry) :
    ∀ x ∈ (processRoutes v dev ifaces now true routes store).1,
      x ∈ store ∨ x.is_active = true := by
  rw [List.all_eq_true] at hact
  unfold processRoutes
  apply foldl_pres (fun acc : List RouteEntry × DevCounters =>
    ∀ x ∈ acc.1, x ∈ store ∨ x.is_active = true)
  · intro pr acc hpr hacc
    by_cases hex : is_excluded_route pr.1 = true
    · rw [if_pos hex]
      exact hacc
    · rw [if_neg hex]
      have hact2 := hact pr hpr
      rw [List.all_eq_true] at hact2
      apply foldl_pres (fun acc : List RouteEntry × DevCounters =>
        ∀ x ∈ acc.1, x ∈ store ∨ x.is_active = true)
      · intro nh acc2 hnh hacc2
        exact processNexthop_mem v dev ifaces now pr.1 nh store (hact2 nh hnh) acc2 hacc2
      · exact hacc
  · intro x hx
    exact Or.inl hx

/-- C10: both vendor parsers hard-code `current_active = True` on every
nexthop dict they emit, and the commit path of the persistence loop stores
that flag as `is_active`; hence after processing a parser-produced route set
every row of the store either was already there or has `is_active = true`,
regardless of what the device reported. -/
theorem C10_always_active :
    (∀ (vrf_name : String) (rd : EosRoute),
      (eosNexthops vrf_name rd).all (fun nh => nh.current_active) = true)
    ∧ (∀ data : EosData, (parse_eos_routes data).all
        (fun pr => pr.2.all (fun nh => nh.current_active)) = true)
    ∧ (∀ rows : List IosRow, (parse_ios_routes rows).all
        (fun pr => pr.2.all (fun nh => nh.current_active)) = true)
    ∧ (∀ (v : String → Option Nat) (dev : Nat) (ifaces : List (String × Iface))
        (now : Int) (store : List RouteEntry) (data : EosData),
        ((processRoutes v dev ifaces now true (parse_eos_routes data) store).1).all
          (fun e => decide (e ∈ store) || e.is_active) = true)
    ∧ (∀ (v : String → Option Nat) (dev : Nat) (ifaces : List (String × Iface))
        (now : Int) (store : List RouteEntry) (rows : List IosRow),
        ((processRoutes v dev ifaces now true (parse_ios_routes rows) store).1).all
          (fun e => decide (e ∈ store) || e.is_active) = true) := by
  have heos : ∀ data : EosData, (parse_eos_routes data).all
      (fun pr => pr.2.all (fun nh => nh.current_active)) = true := by
    intro data
    apply parse_eos_routes_all
    intro vrf_name rd
    rw [List.all_eq_true]
    intro nh hnh
    exact (eosNexthops_fields vrf_name rd nh hnh).2
  have hios : ∀ rows : List IosRow, (parse_ios_routes rows).all
      (fun pr => pr.2.all (fun nh => nh.current_active)) = true := by
    intro rows
    apply parse_ios_routes_all
    intro row
    rfl
  refine ⟨?_, heos, hios, ?_, ?_⟩
  · intro vrf_name rd
    rw [List.all_eq_true]
    intro nh hnh
    exact (eosNexthops_fields vrf_name rd nh hnh).2
  · intro v dev ifaces now store data
    rw [List.all_eq_true]
    intro e he
    rcases processRoutes_active v dev ifaces now _ (heos data) store e he with h | h
    · simp [h]
    · simp [h]
  · intro v dev ifaces now store rows
    rw [List.all_eq_true]
    intro e he
    rcases processRoutes_active v dev ifaces now _ (hios rows) store e he with h | h
    · simp [h]
    · simp [h]

theorem collectStep_counts (v : String → Option Nat) (now : Int) (commit : Bool)
    (acc : RunStats × List RouteEntry) (t : DeviceTask) :
    (collectStep v now commit acc t).1.devices_success
      = acc.1.devices_success + (if t.result = DeviceResult.fail then 0 else 1)
    ∧ (collectStep v now commit acc t).1.devices_failed
      = acc.1.devices_failed + (if t.result = DeviceResult.fail then 1 else 0) := by
  rcases t with ⟨dev, ifaces, res⟩
  cases res with
  | fail => simp [collectStep]
  | collected routes =>
    by_cases hr : routes.isEmpty = true
    · simp [collectStep, hr]
    · simp [collectStep, hr]

theorem collect_counts (v : String → Option Nat) (now : Int) (commit : Bool) :
    ∀ (tasks : List DeviceTask) (acc : RunStats × List RouteEntry),
    (tasks.foldl (collectStep v now commit) acc).1.devices_success
      = acc.1.devices_success + tasks.countP (fun t => ! decide (t.result = DeviceResult.fail))
    ∧ (tasks.foldl (collectStep v now commit) acc).1.devices_failed
      = acc.1.devices_failed + tasks.countP (fun t => decide (t.result = DeviceResult.fail)) := by
  intro tasks
  induction tasks with
  | nil =>
    intro acc
    simp
  | cons t ts ih =>
    intro acc
    rw [List.foldl_cons, List.countP_cons, List.countP_cons]
    obtain ⟨ih1, ih2⟩ := ih (collectStep v now commit acc t)
    obtain ⟨h1, h2⟩ := collectStep_counts v now commit acc t
    constructor
    · rw [ih1, h1]
      by_cases hf : t.result = DeviceResult.fail
      · simp [hf]
      · simp [hf]
        omega
    · rw [ih2, h2]
      by_cases hf : t.result = DeviceResult.fail
      · simp [hf]
        omega
      · simp [hf]

/-- C5: the collect run raises a fatal error exactly when
`devices_success == 0` and `devices_failed > 0` after the per-device loop,
which happens exactly when at least one device was dispatched and every
dispatched device failed; with at least one success it returns the
statistics normally. -/
theorem C5_total_failure_iff (v : String → Option Nat) (tasks : List DeviceTask)
    (store : List RouteEntry) (now : Int) (commit : Bool) :
    ((∃ msg, CollectRoutesJob_run v tasks store now commit = Except.error msg) ↔
      ((tasks.foldl (collectStep v now commit) (initStats tasks.length, store)).1.devices_success = 0
        ∧ 0 < (tasks.foldl (collectStep v now commit) (initStats tasks.length, store)).1.devices_failed))
    ∧ ((∃ msg, CollectRoutesJob_run v tasks store now commit = Except.error msg) ↔
      (tasks ≠ [] ∧ ∀ t ∈ tasks, t.result = DeviceResult.fail)) := by
  obtain ⟨hs, hf⟩ := collect_counts v now commit tasks (initStats tasks.length, store)
  have hiff1 : (∃ msg, CollectRoutesJob_run v tasks store now commit = Except.error msg) ↔
      ((tasks.foldl (collectStep v now commit) (initStats tasks.length, store)).1.devices_success = 0
        ∧ 0 < (tasks.foldl (collectStep v now commit) (initStats tasks.length, store)).1.devices_failed) := by
    cases tasks with
    | nil =>
      constructor
      · rintro ⟨msg, hmsg⟩
        simp [CollectRoutesJob_run] at hmsg
      · rintro ⟨h0, hpos⟩
        simp [initStats] at hpos
    | cons t ts =>
      have hne : (t :: ts).isEmpty = false := rfl
      simp only [CollectRoutesJob_run, hne, Bool.false_eq_true, if_false]
      constructor
      · rintro ⟨msg, hmsg⟩
        by_cases hc : ((t :: ts).foldl (collectStep v now commit)
            (initStats (t :: ts).length, store)).1.devices_success = 0
            ∧ 0 < ((t :: ts).foldl (collectStep v now commit)
              (initStats (t :: ts).length, store)).1.devices_failed
        · exact hc
        · rw [if_neg hc] at hmsg
          cases hmsg
      · intro hc
        exact ⟨_, by rw [if_pos hc]⟩
  refine ⟨hiff1, hiff1.trans ?_⟩
  rw [hs, hf]
  simp only [initStats, Nat.zero_add]
  constructor
  · rintro ⟨h0, hpos⟩
    have hall : ∀ t ∈ tasks, t.result = DeviceResult.fail := by
      intro t ht
      have := List.countP_eq_zero.mp h0 t ht
      simpa using this
    have hnonempty : tasks ≠ [] := by
      intro hnil
      rw [hnil] at hpos
      simp at hpos
    exact ⟨hnonempty, hall⟩
  · rintro ⟨hnonempty, hall⟩
    constructor
    · apply List.countP_eq_zero.mpr
      intro t ht
      simp [hall t ht]
    · apply List.countP_pos_iff.mpr
      rcases List.exists_mem_of_ne_nil tasks hnonempty with ⟨t, ht⟩
      exact ⟨t, ht, by simp [hall t ht]⟩

/-- Number of non-excluded candidate observations in a parsed route set —
the upsert attempts a commit run makes, and the dry-run counter's value. -/
def attemptedRoutes : List (String × List Nexthop) → Nat
  | [] => 0
  | pr :: rest => (if is_excluded_route pr.1 then 0 else pr.2.length) + attemptedRoutes rest

def sum3 (c : DevCounters) : Nat := c.created + c.updated + c.invalid

theorem processNexthop_dry (v : String → Option Nat) (dev : Nat)
    (ifaces : List (String × Iface)) (now : Int) (pfx : String)
    (acc : List RouteEntry × DevCounters) (nh : Nexthop) :
    processNexthop v dev ifaces now false pfx acc nh
      = (acc.1, { acc.2 with dryrun := acc.2.dryrun + 1 }) := by
  simp [processNexthop]

theorem foldl_processNexthop_dry (v : String → Option Nat) (dev : Nat)
    (ifaces : List (String × Iface)) (now : Int) (pfx : String) :
    ∀ (nhs : List Nexthop) (acc : List RouteEntry × DevCounters),
    nhs.foldl (processNexthop v dev ifaces now false pfx) acc
      = (acc.1, { acc.2 with dryrun := acc.2.dryrun + nhs.length }) := by
  intro nhs
  induction nhs with
  | nil =>
    intro acc
    simp
  | cons nh nhs ih =>
    intro acc
    rw [List.foldl_cons, processNexthop_dry, ih]
    have h : acc.2.dryrun + 1 + nhs.length = acc.2.dryrun + (nhs.length + 1) := by omega
    simp [h]

theorem processNexthop_commit_sum (v : String → Option Nat) (dev : Nat)
    (ifaces : List (String × Iface)) (now : Int) (pfx : String)
    (acc : List RouteEntry × DevCounters) (nh : Nexthop) :
    sum3 (processNexthop v dev ifaces now true pfx acc nh).2 = sum3 acc.2 + 1 := by
  simp only [processNexthop, not_true, if_false]
  split
  · simp [sum3]
    omega
  · split
    · simp [sum3]
      omega
    · simp [sum3]
      omega

theorem foldl_processNexthop_commit_sum (v : String → Option Nat) (dev : Nat)
    (ifaces : List (String × Iface)) (now : Int) (pfx : String) :
    ∀ (nhs : List Nexthop) (acc : List RouteEntry × DevCounters),
    sum3 (nhs.foldl (processNexthop v dev ifaces now true pfx) acc).2
      = sum3 acc.2 + nhs.length := by
  intro nhs
  induction nhs with
  | nil =>
    intro acc
    simp
  | cons nh nhs ih =>
    intro acc
    rw [List.foldl_cons, ih, processNexthop_commit_sum]
    simp only [List.length_cons]
    omega

theorem processRoutes_dry_general (v : String → Option Nat) (dev : Nat)
    (ifaces : List (String × Iface)) (now : Int) :
    ∀ (routes : List (String × List Nexthop)) (acc : List RouteEntry × DevCounters),
    (routes.foldl (fun acc pr =>
        if is_excluded_route pr.1 then
          (acc.1, { acc.2 with excluded := acc.2.excluded + 1 })
        else pr.2.foldl (processNexthop v dev ifaces now false pr.1) acc) acc).1 = acc.1
    ∧ (routes.foldl (fun acc pr =>
        if is_excluded_route pr.1 then
          (acc.1, { acc.2 with excluded := acc.2.excluded + 1 })
        else pr.2.foldl (processNexthop v dev ifaces now false pr.1) acc) acc).2.dryrun
      = acc.2.dryrun + attemptedRoutes routes := by
  intro routes
  induction routes with
  | nil =>
    intro acc
    simp [attemptedRoutes]
  | cons pr rest ih =>
    intro acc
    rw [List.foldl_cons]
    by_cases hex : is_excluded_route pr.1 = true
    · rw [if_pos hex]
      obtain ⟨ih1, ih2⟩ := ih (acc.1, { acc.2 with excluded := acc.2.excluded + 1 })
      refine ⟨ih1, ?_⟩
      rw [ih2]
      simp [attemptedRoutes, hex]
    · rw [if_neg hex, foldl_processNexthop_dry]
      obtain ⟨ih1, ih2⟩ := ih (acc.1, { acc.2 with dryrun := acc.2.dryrun + pr.2.length })
      refine ⟨ih1, ?_⟩
      rw [ih2]
      simp [attemptedRoutes, hex]
      omega

theorem processRoutes_commit_sum_general (v : String → Option Nat) (dev : Nat)
    (ifaces : List (String × Iface)) (now : Int) :
    ∀ (routes : List (String × List Nexthop)) (acc : List RouteEntry × DevCounters),
    sum3 (routes.foldl (fun acc pr =>
        if is_excluded_route pr.1 then
          (acc.1, { acc.2 with excluded := acc.2.excluded + 1 })
        else pr.2.foldl (processNexthop v dev ifaces now true pr.1) acc) acc).2
      = sum3 acc.2 + attemptedRoutes routes := by
  intro routes
  induction routes with
  | nil =>
    intro acc
    simp [attemptedRoutes]
  | cons pr rest ih =>
    intro acc
    rw [List.foldl_cons]
    by_cases hex : is_excluded_route pr.1 = true
    · rw [if_pos hex, ih]
      simp [attemptedRoutes, hex, sum3]
    · rw [if_neg hex, ih, foldl_processNexthop_commit_sum]
      simp [attemptedRoutes, hex]
      omega

theorem processRoutes_dry (v : String → Option Nat) (dev : Nat)
    (ifaces : List (String × Iface)) (now : Int)
    (routes : List (String × List Nexthop)) (store : List RouteEntry) :
    (processRoutes v dev ifaces now false routes store).1 = store
    ∧ (processRoutes v dev ifaces now false routes store).2.dryrun
      = attemptedRoutes routes := by
  unfold processRoutes
  have h := processRoutes_dry_general v dev ifaces now routes (store, ⟨0, 0, 0, 0, 0⟩)
  exact ⟨h.1, by rw [h.2]; simp⟩

theorem processRoutes_commit_sum (v : String → Option Nat) (dev : Nat)
    (ifaces : List (String × Iface)) (now : Int)
    (routes : List (String × List Nexthop)) (store : List RouteEntry) :
    sum3 (processRoutes v dev ifaces now true routes store).2 = attemptedRoutes routes := by
  unfold processRoutes
  have h := processRoutes_commit_sum_general v dev ifaces now routes (store, ⟨0, 0, 0, 0, 0⟩)
  rw [h]
  simp [sum3]

theorem collectStep_dry_store (v : String → Option Nat) (now : Int) :
    ∀ (tasks : List DeviceTask) (acc : RunStats × List RouteEntry),
    (tasks.foldl (collectStep v now false) acc).2 = acc.2 := by
  intro tasks
  induction tasks with
  | nil =>
    intro acc
    rfl
  | cons t ts ih =>
    intro acc
    rw [List.foldl_cons, ih]
    rcases t with ⟨dev, ifaces, res⟩
    cases res with
    | fail => rfl
    | collected routes =>
      by_cases hr : routes.isEmpty = true
      · simp [collectStep, hr]
      · simp only [collectStep, hr, Bool.false_eq_true, if_false]
        exact (processRoutes_dry v dev ifaces now routes acc.2).1

/-- Counterexample to C7 as stated: for a device that reports the unparsable
prefix "999.999.999.999/8", the dry-run counts the route (`routes_dryrun = 1`)
while a commit run on the same input writes nothing (the upsert raises
`ValueError` and the route is counted invalid), so `routes_dryrun` is not the
number of routes a commit run would have written. -/
theorem C7_counterexample :
    ¬ ((processRoutes (fun _ => none) 1 [] 0 false
          [("999.999.999.999/8", [⟨"ospf", "", "", 0, 0, true, "default"⟩])] []).2.dryrun
        = (processRoutes (fun _ => none) 1 [] 0 true
            [("999.999.999.999/8", [⟨"ospf", "", "", 0, 0, true, "default"⟩])] []).2.created
          + (processRoutes (fun _ => none) 1 [] 0 true
              [("999.999.999.999/8", [⟨"ospf", "", "", 0, 0, true, "default"⟩])] []).2.updated) := by
  decide

/-- C7 (amended): a `commit=false` run performs zero mutations to the route
store — both per device and across the whole sequential loop — and reports
`routes_dryrun` equal to the number of non-excluded candidate observations,
i.e. the upsert attempts a `commit=true` run on the same input would make
(its created + updated + invalid counts), which exceeds the written count
exactly when some candidates are invalid. -/
theorem C7_amended_dryrun :
    (∀ (v : String → Option Nat) (tasks : List DeviceTask) (store : List RouteEntry)
      (now : Int),
      (tasks.foldl (collectStep v now false) (initStats tasks.length, store)).2 = store)
    ∧ (∀ (v : String → Option Nat) (dev : Nat) (ifaces : List (String × Iface))
      (now : Int) (routes : List (String × List Nexthop)) (store : List RouteEntry),
      (processRoutes v dev ifaces now false routes store).1 = store)
    ∧ (∀ (v : String → Option Nat) (dev : Nat) (ifaces : List (String × Iface))
      (now : Int) (routes : List (String × List Nexthop)) (store store2 : List RouteEntry),
      (processRoutes v dev ifaces now false routes store).2.dryrun
        = (processRoutes v dev ifaces now true routes store2).2.created
          + (processRoutes v dev ifaces now true routes store2).2.updated
          + (processRoutes v dev ifaces now true routes store2).2.invalid) := by
  refine ⟨?_, ?_, ?_⟩
  · intro v tasks store now
    exact collectStep_dry_store v now tasks _
  · intro v dev ifaces now routes store
    exact (processRoutes_dry v dev ifaces now routes store).1
  · intro v dev ifaces now routes store store2
    rw [(processRoutes_dry v dev ifaces now routes store).2]
    have h := processRoutes_commit_sum v dev ifaces now routes store2
    simp only [sum3] at h
    omega
